import Mathlib

/-!
# Verification of the biojs-vis-mds projection view engine

Shallow embedding of the engine code (`src/lib/mdsvis.js`, `src/lib/utils.js`,
`src/lib/scatterplot.js`) together with proofs and refutations of the
specification claims about it.

JavaScript values are modelled by `JsVal`.  JavaScript objects are modelled by
`JsProps`, an insertion-ordered sequence of own properties (JS objects never
hold duplicate property keys; for the string-named, non-array-index keys used
by all configuration objects in this library, insertion order is also the
enumeration order).  `JsItems` models a JS array's element sequence.
-/

mutual

/-- Model of a JavaScript value as used by the configuration trees, traces and
records of this library.  Numbers are modelled as integers (every numeric
value exercised by the claims is an integer). -/
inductive JsVal where
  | null : JsVal
  | undef : JsVal
  | bool : Bool → JsVal
  | num : Int → JsVal
  | str : String → JsVal
  | arr : JsItems → JsVal
  | obj : JsProps → JsVal
deriving DecidableEq, Repr

/-- The element sequence of a JS array. -/
inductive JsItems where
  | nil : JsItems
  | cons : JsVal → JsItems → JsItems
deriving DecidableEq, Repr

/-- The own-property sequence of a JS object, in insertion order. -/
inductive JsProps where
  | nil : JsProps
  | cons : String → JsVal → JsProps → JsProps
deriving DecidableEq, Repr

end

/-- Build a `JsItems` sequence from a Lean list (literal convenience). -/
def JsItems.ofList : List JsVal → JsItems
  | [] => JsItems.nil
  | v :: vs => JsItems.cons v (JsItems.ofList vs)

/-- Build a `JsProps` sequence from a Lean association list (literal
convenience). -/
def JsProps.ofList : List (String × JsVal) → JsProps
  | [] => JsProps.nil
  | (k, v) :: ps => JsProps.cons k v (JsProps.ofList ps)

/-- Property read `o[k]`: the value of the (unique) entry with key `k`, or
`none` for JS `undefined`. -/
def jsLookup (o : JsProps) (k : String) : Option JsVal :=
  match o with
  | JsProps.nil => none
  | JsProps.cons k' v rest => if k' = k then some v else jsLookup rest k

/-- Property write `o[k] = v`: overwrite an existing property in place,
keeping its position, or append a new property at the end—exactly the JS
assignment semantics on plain objects. -/
def jsSet (o : JsProps) (k : String) (v : JsVal) : JsProps :=
  match o with
  | JsProps.nil => JsProps.cons k v JsProps.nil
  | JsProps.cons k' v' rest =>
    if k' = k then JsProps.cons k' v rest else JsProps.cons k' v' (jsSet rest k v)

/-- The keys of an object, in property order. -/
def jsKeys (o : JsProps) : List String :=
  match o with
  | JsProps.nil => []
  | JsProps.cons k _ rest => k :: jsKeys rest

/-- `val && typeof val === 'object' && val.constructor === Object`
(utils.js lines 26-29): true exactly for plain objects—`null` and `undefined`
are not truthy, arrays have constructor `Array`. -/
def isPlainObject (v : JsVal) : Bool :=
  match v with
  | JsVal.obj _ => true
  | _ => false

/-! `merge` from `src/lib/utils.js` (lines 22-41), in the two-argument form
used by the engine.  The JS function walks the properties of the override
object and assigns into `obj` (`obj[prop] = ...`), i.e. it MUTATES the base
object in place, and finally returns `obj` itself; the returned reference
aliases the base argument, so the returned value and the post-call value of
the base argument are one and the same object.  This definition computes that
common final value.

Per property `(prop, val)` of the override: if `val` and the corresponding
base value are both plain objects, recurse into the base value in place; if
only `val` is a plain object, assign a fresh empty object and recurse into
it; otherwise assign `val` directly (this includes arrays, which are replaced
wholesale, and `null`/`undefined`, which fail the truthiness test). -/
mutual

/-- See the comment above: `merge` from `src/lib/utils.js` (lines 22-41). -/
def merge : JsProps → JsProps → JsProps
  | obj, JsProps.nil => obj
  | obj, JsProps.cons prop val rest => merge (mergeStep obj prop val) rest

/-- The body of `merge`'s `for (var prop in arguments[i])` loop
(utils.js lines 24-38) for one override property `(prop, val)`: the three
branches on `valIsObject` and `objPropIsObject`. -/
def mergeStep (obj : JsProps) (prop : String) (val : JsVal) : JsProps :=
  match val with
  | JsVal.obj vprops =>
    match jsLookup obj prop with
    | some (JsVal.obj bprops) => jsSet obj prop (JsVal.obj (merge bprops vprops))
    | _ => jsSet obj prop (JsVal.obj (merge JsProps.nil vprops))
  | _ => jsSet obj prop val

end

/-- Underscore's `_.extend(dest, src)` as used by `traceFromGroup`
(`src/lib/mdsvis.js` line 314): assign every property of `src` onto `dest`,
overwriting existing keys in place. -/
def jsExtend (dest : JsProps) : JsProps → JsProps
  | JsProps.nil => dest
  | JsProps.cons k v rest => jsExtend (jsSet dest k v) rest

/-- `dimensionPairs` from `src/lib/mdsvis.js` (lines 612-622): the double loop
`for (i = 1; i <= ndim; i++) for (j = i+1; j <= ndim; j++) pairs.push([i,j])`. -/
def dimensionPairs (ndim : Nat) : List (Nat × Nat) :=
  (List.range' 1 ndim).foldl
    (fun pairs i => pairs ++ (List.range' (i + 1) (ndim - i)).map (fun j => (i, j))) []

/-- The engine's error outcomes.  The JS code throws `Error` objects
distinguished by message; `MdsError.message` reproduces those strings. -/
inductive MdsError where
  | noRootDiv : MdsError
  | noCoords : MdsError
  | invalidDimPair : MdsError
  | onlyOneDim : MdsError
  | lengthOfUndefined : MdsError
deriving DecidableEq, Repr

/-- The strings thrown by `src/lib/mdsvis.js`.  `lengthOfUndefined` is not a
thrown `Error` but the runtime `TypeError` raised by evaluating
`this.coords[0].length` when `coords` is the empty array (line 107). -/
def MdsError.message : MdsError → String
  | noRootDiv => "no root div supplied (mdsvis.create)"
  | noCoords => "no coords supplied (mdsvis.create)"
  | invalidDimPair => "invalid xDim,yDim pair supplied (mdsvis.create)"
  | onlyOneDim => "only one of xDim or yDim supplied (mdsvis.create)"
  | lengthOfUndefined => "TypeError: Cannot read property length of undefined"

/-- `MDSVis.prototype.initDimensions` (`src/lib/mdsvis.js` lines 130-148).
Returns the `(xDim, yDim)` pair the instance ends up with, or the thrown
error.  The JS code compares `JSON.stringify([_xDim, _yDim])` against the
stringified canonical pairs; for natural numbers that is exactly membership
in `dimensionPairs ndim`. -/
def initDimensions (ndim : Nat) (xDim? yDim? : Option Nat) : Except MdsError (Nat × Nat) :=
  match xDim?, yDim? with
  | some x, some y =>
    if (x, y) ∈ dimensionPairs ndim then Except.ok (x, y)
    else Except.error MdsError.invalidDimPair
  | none, none => Except.ok (1, 2)
  | _, _ => Except.error MdsError.onlyOneDim

/-- One metadata record: a mapping from field name to a scalar value.  The
scalar is modelled as a string, which is also how `_.groupBy` coerces it when
used as a group key. -/
abbrev MetaRecord := List (String × String)

/-- A bound record: one coordinate vector together with the fields of its
metadata record, produced by `initData`'s `_.extend({coord: pair[0]}, pair[1])`
(`src/lib/mdsvis.js` lines 213-218). -/
structure BoundRecord where
  coord : List Int
  fields : List (String × String)
deriving DecidableEq, Repr

/-- `_.zip(this.coords, this.metadata)` followed by
`_.map(..., _.extend({coord: ...}, ...))` (`src/lib/mdsvis.js` lines 213-218),
for the engine's standard case of parallel sequences: one record per
coordinate, in input order, carrying the fields of the corresponding metadata
record (no fields when the metadata sequence is shorter).  Surplus metadata
entries beyond the coordinates — which would produce records with `undefined`
coordinates and a downstream `TypeError` — are outside every claim and are
not modelled. -/
def bindRecords : List (List Int) → List MetaRecord → List BoundRecord
  | [], _ => []
  | c :: cs, [] => { coord := c, fields := [] } :: bindRecords cs []
  | c :: cs, m :: ms => { coord := c, fields := m } :: bindRecords cs ms

/-- JS `Array.prototype.sort()` on distinct strings: ascending lexicographic
order (insertion sort; the key lists sorted here never contain duplicates). -/
def insertSorted (s : String) : List String → List String
  | [] => [s]
  | t :: ts => if s ≤ t then s :: t :: ts else t :: insertSorted s ts

/-- The body of `Array.prototype.sort()` applied to a key list. -/
def jsSortStrings (l : List String) : List String := l.foldr insertSorted []

/-- The group-name computation inside `MDSVis.prototype.getGroupNames`
(`src/lib/mdsvis.js` lines 334-344): collect the own field names of the first
metadata record and sort them; no metadata gives the empty list. -/
def computeGroupNames (metadataSupplied : Bool) (metadata : List MetaRecord) : List String :=
  if metadataSupplied then jsSortStrings ((metadata.headD []).map Prod.fst) else []

/-- `MDSVis.prototype.getGroupNames` (`src/lib/mdsvis.js` lines 326-348).
The JS property is an immediately-invoked closure evaluated ONCE at module
load, so its memo variable `groups` is shared by every instance of `MDSVis`
in the module's lifetime.  `memo` is that module-level variable; the call
returns the computed names and the updated module state. -/
def getGroupNames (memo : Option (List String)) (vis : Bool × List MetaRecord) :
    List String × Option (List String) :=
  match memo with
  | some gs => (gs, some gs)
  | none =>
    let gs := computeGroupNames vis.1 vis.2
    (gs, some gs)

/-- Plotly layout defaults (`src/lib/mdsvis.js` lines 26-41). -/
def defaultLayout : JsProps := JsProps.ofList
  [("title", JsVal.str "MDS Plot"),
   ("width", JsVal.num 700),
   ("height", JsVal.num 450),
   ("hovermode", JsVal.str "closest"),
   ("xaxis", JsVal.obj (JsProps.ofList
     [("title", JsVal.str "Dimension 1"),
      ("showgrid", JsVal.bool false),
      ("zeroline", JsVal.bool true)])),
   ("yaxis", JsVal.obj (JsProps.ofList
     [("title", JsVal.str "Dimension 2"),
      ("showgrid", JsVal.bool false),
      ("zeroline", JsVal.bool true)]))]

/-- Plotly misc config defaults (`src/lib/mdsvis.js` lines 42-50). -/
def defaultConfig : JsProps := JsProps.ofList
  [("modeBarButtonsToRemove", JsVal.arr (JsItems.ofList
     [JsVal.str "select2d", JsVal.str "lasso2d", JsVal.str "autoScale2d",
      JsVal.str "hoverClosestCartesian", JsVal.str "hoverCompareCartesian"]))]

/-- Plotly trace defaults (`src/lib/mdsvis.js` lines 51-56). -/
def defaultTrace : JsProps := JsProps.ofList
  [("type", JsVal.str "scatter"),
   ("textposition", JsVal.str "middle right"),
   ("hoverinfo", JsVal.str "text"),
   ("marker", JsVal.obj (JsProps.ofList [("size", JsVal.num 10)]))]

/-- Nested write `o[k1][k2] = v`, used for
`this.layout.xaxis.title = 'Dimension ' + this.xDim`
(`src/lib/mdsvis.js` lines 234-235); `defaultLayout` always holds the nested
object, so the missing-object case (a JS `TypeError`) is unreachable here. -/
def jsSetIn (o : JsProps) (k1 k2 : String) (v : JsVal) : JsProps :=
  match jsLookup o k1 with
  | some (JsVal.obj inner) => jsSet o k1 (JsVal.obj (jsSet inner k2 v))
  | _ => o

/-- The model of an `MDSVis` instance: the class properties set by the
constructor (`src/lib/mdsvis.js` lines 97-115).  The root element is an
external DOM collaborator and carries no engine state, so it is not stored;
event handlers are opaque and not stored. -/
structure MDSVis where
  coords : List (List Int)
  ndim : Nat
  xDim : Nat
  yDim : Nat
  showLabels : Bool
  metadataSupplied : Bool
  metadata : List MetaRecord
  data : List BoundRecord
  groupByKey : Option String
  layout : JsProps
  configOptions : JsProps
  traceConfig : JsProps
deriving DecidableEq, Repr

/-- Construction options (`opts`), all optional, per README and constructor. -/
structure MdsOpts where
  xDim : Option Nat := none
  yDim : Option Nat := none
  showLabels : Option Bool := none
  metadata : Option (List MetaRecord) := none
  groupByKey : Option String := none
  layout : JsProps := JsProps.nil
  configOptions : JsProps := JsProps.nil
  traceConfig : JsProps := JsProps.nil
deriving Repr

/-- The `MDSVis` constructor (`src/lib/mdsvis.js` lines 97-115) together with
`initDimensions`, `initShowLabels`, `initData` and `initLayoutAndConfig`.
`el?` is `some ()` when a root element was supplied.  `memo` is the
module-level `getGroupNames` closure state, threaded because `initData` calls
`this.getGroupNames()` when metadata is supplied (line 221); the updated
module state is returned with the instance.  A thrown error aborts
construction, so no instance value exists in the error case.

Note the check order: the root element is checked before the coordinates, and
`coords === undefined` is the only coordinate check—an empty coords array
passes it and then crashes at `this.ndim = this.coords[0].length` with a
`TypeError`, modelled by `MdsError.lengthOfUndefined`. -/
def mdsVisCreate (memo : Option (List String)) (el? : Option Unit)
    (coords? : Option (List (List Int))) (opts : MdsOpts) :
    Except MdsError (MDSVis × Option (List String)) :=
  match el? with
  | none => Except.error MdsError.noRootDiv
  | some _ =>
    match coords? with
    | none => Except.error MdsError.noCoords
    | some coords =>
      match coords.head? with
      | none => Except.error MdsError.lengthOfUndefined
      | some c0 =>
        let ndim := c0.length
        match initDimensions ndim opts.xDim opts.yDim with
        | Except.error e => Except.error e
        | Except.ok (xDim, yDim) =>
          let showLabels := opts.showLabels.getD false
          -- initData (src/lib/mdsvis.js lines 199-225)
          let (metadataSupplied, metadata, data, groupByKey, memo') :=
            match opts.metadata with
            | none => (false, ([] : List MetaRecord),
                coords.map (fun c => { coord := c, fields := [] : BoundRecord }),
                (none : Option String), memo)
            | some md =>
              let data := bindRecords coords md
              let (gs, memo') := getGroupNames memo (true, md)
              let groupByKey :=
                match opts.groupByKey with
                | some k => some k
                | none => gs.head?
              (true, md, data, groupByKey, memo')
          -- initLayoutAndConfig (src/lib/mdsvis.js lines 227-241)
          let layout0 := jsSetIn defaultLayout "xaxis" "title"
            (JsVal.str ("Dimension " ++ Nat.repr xDim))
          let layout1 := jsSetIn layout0 "yaxis" "title"
            (JsVal.str ("Dimension " ++ Nat.repr yDim))
          let layout := merge layout1 opts.layout
          let configOptions := merge defaultConfig opts.configOptions
          let traceConfig := merge defaultTrace opts.traceConfig
          Except.ok
            ({ coords := coords, ndim := ndim, xDim := xDim, yDim := yDim,
               showLabels := showLabels, metadataSupplied := metadataSupplied,
               metadata := metadata, data := data, groupByKey := groupByKey,
               layout := layout, configOptions := configOptions,
               traceConfig := traceConfig }, memo')

/-- The thrown error of a construction attempt, if any (`none` when an
instance was successfully created). -/
def createError (r : Except MdsError (MDSVis × Option (List String))) : Option MdsError :=
  match r with
  | Except.error e => some e
  | Except.ok _ => none

/-- Did a construction attempt produce an instance? -/
def createSucceeded (r : Except MdsError (MDSVis × Option (List String))) : Bool :=
  match r with
  | Except.error _ => false
  | Except.ok _ => true

/-- Two engine instances constructed in sequence in the same module (with
metadata `md1` and `md2` respectively), sharing the module-level
`getGroupNames` closure state; returns what `getGroupNames()` yields on each
instance afterwards.  Coordinates are a fixed valid one-point dataset, so
both constructions succeed (the error branches are unreachable). -/
def twoInstanceScenario (md1 md2 : List MetaRecord) : List String × List String :=
  match mdsVisCreate none (some ()) (some [[0, 0]]) { metadata := some md1 } with
  | Except.ok (v1, m1) =>
    match mdsVisCreate m1 (some ()) (some [[0, 0]]) { metadata := some md2 } with
    | Except.ok (v2, m2) =>
      let (g1, m3) := getGroupNames m2 (v1.metadataSupplied, v1.metadata)
      let (g2, _) := getGroupNames m3 (v2.metadataSupplied, v2.metadata)
      (g1, g2)
    | Except.error _ => ([], [])
  | Except.error _ => ([], [])

/-- JS array element read `coord[i]`: `undefined` beyond the end. -/
def coordAt (c : List Int) (i : Nat) : JsVal :=
  match c.get? i with
  | some v => JsVal.num v
  | none => JsVal.undef

/-- `MDSVis.prototype.traceFromGroup` (`src/lib/mdsvis.js` lines 302-317):
build the trace object for one group with the freshly computed x/y arrays,
mode, name and label text, then `_.extend` the instance's merged trace
configuration onto it—overwriting any freshly computed property whose key
also occurs in the trace configuration. -/
def traceFromGroup (vis : MDSVis) (data : List BoundRecord) (groupname : String) : JsProps :=
  let xPoints := data.map (fun r => coordAt r.coord (vis.xDim - 1))
  let yPoints := data.map (fun r => coordAt r.coord (vis.yDim - 1))
  let trace := JsProps.ofList
    [("x", JsVal.arr (JsItems.ofList xPoints)),
     ("y", JsVal.arr (JsItems.ofList yPoints)),
     ("mode", JsVal.str (if vis.showLabels then "markers+text" else "markers")),
     ("name", JsVal.str (groupname ++ " (" ++ Nat.repr xPoints.length ++ ")")),
     ("text", JsVal.str groupname)]
  jsExtend trace vis.traceConfig

/-- The group key `_.groupBy` derives for a record: the value of the grouping
field, or the string `"undefined"` (JS `String(undefined)`) when the record
lacks the field. -/
def recKey (r : BoundRecord) (gk : String) : String :=
  match r.fields.lookup gk with
  | some v => v
  | none => "undefined"

/-- One step of `_.groupBy`'s accumulation, `result[key].push(record)`: append
the record to its key's group, or append a brand-new group at the end for a
first-seen key. -/
def groupUpsert (acc : List (String × List BoundRecord)) (k : String) (r : BoundRecord) :
    List (String × List BoundRecord) :=
  match acc with
  | [] => [(k, [r])]
  | (k', rs) :: rest =>
    if k' = k then (k', rs ++ [r]) :: rest else (k', rs) :: groupUpsert rest k r

/-- `_.groupBy(this.data, this.groupByKey)` (`src/lib/mdsvis.js` line 287):
the grouping object's properties in insertion (first-seen) order. -/
def groupByKeyed (data : List BoundRecord) (gk : String) : List (String × List BoundRecord) :=
  data.foldl (fun acc r => groupUpsert acc (recKey r gk) r) []

/-- Is a character sequence the canonical decimal form of a natural number
(digits only, nonempty, no leading zero except `"0"` itself)? -/
def isCanonicalDecimal (l : List Char) : Bool :=
  match l with
  | [] => false
  | ['0'] => true
  | c :: _ => c ≠ '0' && l.all Char.isDigit

/-- The numeric value of a decimal digit sequence. -/
def decimalValue (l : List Char) : Nat :=
  l.foldl (fun n c => n * 10 + (c.toNat - 48)) 0

/-- Does the string name a JS array index, i.e. is it the canonical decimal
form of an integer below 2^32 - 1?  Such object keys are enumerated before
all other keys, in ascending numeric order. -/
def isArrayIndexKey (s : String) : Bool :=
  isCanonicalDecimal s.data && decimalValue s.data < 4294967295

/-- The numeric value of an array-index key (used only on array-index keys). -/
def numOfKey (s : String) : Nat := decimalValue s.data

/-- Insert one keyed entry into a list sorted ascending by numeric key. -/
def insertByNum (p : String × List BoundRecord) :
    List (String × List BoundRecord) → List (String × List BoundRecord)
  | [] => [p]
  | q :: qs => if numOfKey p.1 ≤ numOfKey q.1 then p :: q :: qs else q :: insertByNum p qs

/-- JS own-property enumeration order (`Object.keys`, used by `_.map` over the
grouping object): array-index keys first in ascending numeric order, then the
remaining keys in insertion order. -/
def jsOwnKeysOrder (l : List (String × List BoundRecord)) : List (String × List BoundRecord) :=
  ((l.filter (fun p => isArrayIndexKey p.1)).foldr insertByNum []) ++
    l.filter (fun p => !isArrayIndexKey p.1)

/-- The grouped data underlying `MDSVis.prototype.getTraces`
(`src/lib/mdsvis.js` lines 284-296): `_.groupBy` followed by `_.map`'s
enumeration of the grouping object's properties. -/
def getTracesGroups (data : List BoundRecord) (gk : String) : List (String × List BoundRecord) :=
  jsOwnKeysOrder (groupByKeyed data gk)

/-- `MDSVis.prototype.getTraces` (`src/lib/mdsvis.js` lines 284-296). -/
def getTraces (vis : MDSVis) : List JsProps :=
  if vis.metadataSupplied then
    (getTracesGroups vis.data (vis.groupByKey.getD "undefined")).map
      (fun p => traceFromGroup vis p.2 p.1)
  else
    [traceFromGroup vis vis.data "all"]

/-- The distinct group-key values of a record sequence in first-seen order
(used to state what "first appearance order" means; the code's
`groupByKeyed` is proved to produce its keys in exactly this order). -/
def firstSeenKeys (data : List BoundRecord) (gk : String) : List String :=
  data.foldl (fun ks r => let k := recKey r gk; if k ∈ ks then ks else ks ++ [k]) []

/-! ## The label overlap resolver (`src/lib/scatterplot.js` lines 162-198) -/

/-- One rendered label as seen by `setOverlappingLabelText`: its current text
(`d3 .text()`), the x/y translation of its `transform` attribute, and its
bounding-box extent (`getBBox()`).  Coordinates are modelled as integers; the
algorithm only adds the constant margin and compares. -/
structure SvgLabel where
  text : String
  x : Int
  y : Int
  w : Int
  h : Int
deriving DecidableEq, Repr, Inhabited

/-- `var delta = 2` (`src/lib/scatterplot.js` line 165). -/
def overlapDelta : Int := 2

/-- The mutable state of one `setOverlappingLabelText` run: the labels'
current texts (the algorithm blanks hidden labels' texts in place), the
`hiddenLabels` index list, plus two ghost fields recording, for analysis,
which outer indices were evaluated as potential suppressors and which
`(outer, hidden)` pairs occurred. -/
structure OverlapState where
  texts : List String
  hiddenLabels : List Nat
  evaluated : List Nat
  hideEvents : List (Nat × Nat)
deriving DecidableEq, Repr

/-- The inner `self.label.each` body (`src/lib/scatterplot.js` lines 178-196)
for outer label index `i` and inner label index `j`: skip when the two are
the same element or their current texts differ; otherwise test whether label
`j`'s anchor satisfies
`xb0-xa0 && xb0 < xa1 && yb0 > ya0 && yb0 < ya1`
against the outer label's margin-expanded box, and if so blank label `j`'s
text and record it hidden.  The `xb0-xa0` conjunct is JS truthiness of the
difference, i.e. `xb0 - xa0 ≠ 0`. -/
def innerStep (labels : List SvgLabel) (i : Nat) (st : OverlapState) (j : Nat) : OverlapState :=
  let a := labels.getD i default
  let b := labels.getD j default
  let ta := st.texts.getD i ""
  let tb := st.texts.getD j ""
  if i = j ∨ ta ≠ tb then st
  else
    let xa0 := a.x - overlapDelta
    let ya0 := a.y - overlapDelta
    let xa1 := xa0 + a.w + overlapDelta
    let ya1 := ya0 + a.h + overlapDelta
    let xb0 := b.x
    let yb0 := b.y
    if xb0 - xa0 ≠ 0 ∧ xb0 < xa1 ∧ yb0 > ya0 ∧ yb0 < ya1 then
      { st with texts := st.texts.set j "",
                hiddenLabels := st.hiddenLabels ++ [j],
                hideEvents := st.hideEvents ++ [(i, j)] }
    else st

/-- The outer `self.label.each` body (`src/lib/scatterplot.js` lines 168-197):
skip outer labels already recorded in `hiddenLabels`
(`hiddenLabels.indexOf(i) != -1`); otherwise scan every label as inner index.
The ghost field `evaluated` records the outer indices that ran the scan. -/
def outerStep (labels : List SvgLabel) (st : OverlapState) (i : Nat) : OverlapState :=
  if i ∈ st.hiddenLabels then st
  else
    (List.range labels.length).foldl (innerStep labels i)
      { st with evaluated := st.evaluated ++ [i] }

/-- `ScatterPlot.prototype.setOverlappingLabelText`
(`src/lib/scatterplot.js` lines 162-198): the full O(n²) pairwise pass over
the labels in draw order. -/
def setOverlappingLabelText (labels : List SvgLabel) : OverlapState :=
  (List.range labels.length).foldl (outerStep labels)
    { texts := labels.map SvgLabel.text, hiddenLabels := [],
      evaluated := [], hideEvents := [] }

/-- Strict lexicographic order on dimension pairs: first component ascending,
second component breaking ties. -/
def lexLt (p q : Nat × Nat) : Prop := p.1 < q.1 ∨ (p.1 = q.1 ∧ p.2 < q.2)

/-- The base object `merge` recurses into at key `k`: the existing plain
object there, or the freshly assigned empty object when the base holds no
plain object at `k`. -/
def baseSub (base : JsProps) (k : String) : JsProps :=
  match jsLookup base k with
  | some (JsVal.obj bprops) => bprops
  | _ => JsProps.nil

/-- The value `merge` establishes at an overridden key: nested merge for a
plain-object override value, the override value itself otherwise (wholesale
replacement; this includes arrays). -/
def mergeResultAt (base : JsProps) (k : String) (v : JsVal) : JsVal :=
  match v with
  | JsVal.obj vprops => JsVal.obj (merge (baseSub base k) vprops)
  | v => v

/-! ## Theorems -/

theorem foldl_append_eq_flatMap {α β : Type} (f : α → List β) :
    ∀ (l : List α) (acc : List β),
      l.foldl (fun a i => a ++ f i) acc = acc ++ l.flatMap f := by
  intro l
  induction l with
  | nil => simp
  | cons i l ih => intro acc; simp only [List.foldl_cons, List.flatMap_cons, ih,
      List.append_assoc]

theorem dimensionPairs_eq_flatMap (n : Nat) :
    dimensionPairs n =
      (List.range' 1 n).flatMap (fun i => (List.range' (i + 1) (n - i)).map (fun j => (i, j))) := by
  simpa [dimensionPairs] using
    foldl_append_eq_flatMap (fun i => (List.range' (i + 1) (n - i)).map (fun j => (i, j)))
      (List.range' 1 n) []

theorem mem_dimensionPairs (n : Nat) (p : Nat × Nat) :
    p ∈ dimensionPairs n ↔ 1 ≤ p.1 ∧ p.1 < p.2 ∧ p.2 ≤ n := by
  obtain ⟨a, b⟩ := p
  rw [dimensionPairs_eq_flatMap]
  simp only [List.mem_flatMap, List.mem_map, List.mem_range'_1, Prod.mk.injEq]
  constructor
  · rintro ⟨i, ⟨h1, h2⟩, j, ⟨hj1, hj2⟩, rfl, rfl⟩
    omega
  · rintro ⟨h1, h2, h3⟩
    exact ⟨a, ⟨h1, by omega⟩, b, ⟨by omega, by omega⟩, rfl, rfl⟩

theorem pairwise_dimensionPairs (n : Nat) : List.Pairwise lexLt (dimensionPairs n) := by
  rw [dimensionPairs_eq_flatMap, List.pairwise_flatMap]
  constructor
  · intro i _
    rw [List.pairwise_map]
    exact (List.pairwise_lt_range' (i + 1) (n - i)).imp (fun h => Or.inr ⟨rfl, h⟩)
  · apply (List.pairwise_lt_range' 1 n).imp
    intro i1 i2 h x hx y hy
    obtain ⟨j1, _, rfl⟩ := List.mem_map.mp hx
    obtain ⟨j2, _, rfl⟩ := List.mem_map.mp hy
    exact Or.inl h

theorem sum_map_succ (f : Nat → Nat) :
    ∀ l : List Nat, (l.map (fun i => f i + 1)).sum = (l.map f).sum + l.length := by
  intro l
  induction l with
  | nil => simp
  | cons a l ih => simp [ih]; omega

theorem range'_sub_sum : ∀ m : Nat,
    2 * ((List.range' 1 m).map (fun i => m - i)).sum = m * (m - 1) := by
  intro m
  induction m with
  | zero => simp
  | succ m ih =>
    rw [List.range'_concat, List.map_append, List.sum_append]
    have hcong : (List.range' 1 m).map (fun i => m + 1 - i) =
        (List.range' 1 m).map (fun i => (m - i) + 1) := by
      apply List.map_congr_left
      intro i hi
      rw [List.mem_range'_1] at hi
      omega
    rw [hcong, sum_map_succ, List.length_range', List.map_cons, List.map_nil,
      List.sum_cons, List.sum_nil]
    have hz : m + 1 - (1 + 1 * m) = 0 := by omega
    rw [hz]
    have key : m * (m - 1) + 2 * m = (m + 1) * (m + 1 - 1) := by
      cases m with
      | zero => rfl
      | succ k =>
        simp only [Nat.add_sub_cancel]
        ring
    have heta : (List.map (HSub.hSub m) (List.range' 1 m)).sum
        = (List.map (fun i => m - i) (List.range' 1 m)).sum := rfl
    omega

theorem twice_length_dimensionPairs (n : Nat) :
    2 * (dimensionPairs n).length = n * (n - 1) := by
  rw [dimensionPairs_eq_flatMap, List.length_flatMap]
  have hlen : (List.range' 1 n).map (List.length ∘ fun i =>
      (List.range' (i + 1) (n - i)).map (fun j => (i, j))) =
      (List.range' 1 n).map (fun i => n - i) := by
    apply List.map_congr_left
    intro i _
    simp [Function.comp]
  rw [hlen]
  exact range'_sub_sum n

/-- C10: for every dimensionality `N`, `dimensionPairs N` is exactly the
list of all pairs `(i, j)` with `1 ≤ i < j ≤ N`, in lexicographic order
(`i` ascending outer, `j` ascending inner), of length `N(N-1)/2`; in
particular `dimensionPairs 4 = [(1,2),(1,3),(1,4),(2,3),(2,4),(3,4)]`. -/
theorem dimensionPairs_spec :
    (∀ n p, p ∈ dimensionPairs n ↔ 1 ≤ p.1 ∧ p.1 < p.2 ∧ p.2 ≤ n) ∧
    (∀ n, List.Pairwise lexLt (dimensionPairs n)) ∧
    (∀ n, (dimensionPairs n).length = n * (n - 1) / 2) ∧
    dimensionPairs 4 = [(1, 2), (1, 3), (1, 4), (2, 3), (2, 4), (3, 4)] := by
  refine ⟨mem_dimensionPairs, pairwise_dimensionPairs, fun n => ?_, by decide⟩
  have h := twice_length_dimensionPairs n
  omega

/-- C8: supplying only one of the two axis indices fails with the
only-one-dimension error; supplying a pair outside the canonical ascending
list fails with the invalid-pair error (e.g. `[3,1]` with dimensionality 4);
the two failures are distinct errors.  These are the code's
`IncompleteDimensionSelectionError` and `InvalidDimensionPairError`
respectively, distinguished by message. -/
theorem initDimensions_validation :
    (∀ ndim x, initDimensions ndim (some x) none = Except.error MdsError.onlyOneDim) ∧
    (∀ ndim y, initDimensions ndim none (some y) = Except.error MdsError.onlyOneDim) ∧
    (∀ ndim x y, (x, y) ∉ dimensionPairs ndim →
      initDimensions ndim (some x) (some y) = Except.error MdsError.invalidDimPair) ∧
    initDimensions 4 (some 3) (some 1) = Except.error MdsError.invalidDimPair ∧
    initDimensions 4 (some 1) none = Except.error MdsError.onlyOneDim ∧
    MdsError.onlyOneDim ≠ MdsError.invalidDimPair := by
  refine ⟨fun ndim x => rfl, fun ndim y => rfl, fun ndim x y h => ?_, rfl, rfl, by decide⟩
  simp [initDimensions, h]

/-- Witness for `initDimensions_validation`: the pair `(2,1)` is not canonical
for dimensionality 4 and is rejected with the invalid-pair error. -/
theorem initDimensions_validation_witness :
    ((2, 1) ∉ dimensionPairs 4) ∧
      initDimensions 4 (some 2) (some 1) = Except.error MdsError.invalidDimPair :=
  ⟨by decide, initDimensions_validation.2.2.1 4 2 1 (by decide)⟩

/-- C7 counterexample: constructing with a host element and an EMPTY points
array does fail, but with the `TypeError` from `this.coords[0].length`, not
with the missing-coordinates error the claim names—the code only checks
`coords === undefined`. -/
theorem create_empty_coords_counterexample :
    createError (mdsVisCreate none (some ()) (some []) {}) = some MdsError.lengthOfUndefined ∧
    MdsError.lengthOfUndefined ≠ MdsError.noCoords := by
  exact ⟨by decide, by decide⟩

/-- C7 amended: a missing host element fails with the missing-host error
(this check runs first, so it wins when both inputs are missing); a missing
(undefined) points sequence fails with the missing-coordinates error; an
EMPTY points sequence fails with the `TypeError` from reading
`coords[0].length`, not the missing-coordinates error.  In every case the
result is an error, so no (partial) engine instance is created. -/
theorem create_missing_inputs (memo : Option (List String)) (opts : MdsOpts) :
    (∀ coords?, createError (mdsVisCreate memo none coords? opts) = some MdsError.noRootDiv) ∧
    createError (mdsVisCreate memo (some ()) none opts) = some MdsError.noCoords ∧
    createError (mdsVisCreate memo (some ()) (some []) opts) = some MdsError.lengthOfUndefined ∧
    (∀ coords?, createSucceeded (mdsVisCreate memo none coords? opts) = false) ∧
    createSucceeded (mdsVisCreate memo (some ()) none opts) = false ∧
    createSucceeded (mdsVisCreate memo (some ()) (some []) opts) = false :=
  ⟨fun _ => rfl, rfl, rfl, fun _ => rfl, rfl, rfl⟩

/-- C2 counterexample: after `merge({a:1}, {a:2})` the base argument holds
`{a:2}`—the function assigns into the base object and returns it, so the
base is NOT structurally equal to its pre-call value `{a:1}`. -/
theorem merge_mutates_base_counterexample :
    merge (JsProps.ofList [("a", JsVal.num 1)]) (JsProps.ofList [("a", JsVal.num 2)])
      ≠ JsProps.ofList [("a", JsVal.num 1)] := by decide

/-- C2 amended: `merge(base, override)` returns the base object itself,
mutated in place; after the call the base argument is structurally equal to
the returned merged tree, not in general to its pre-call value.  The base
keeps its pre-call value exactly when the override changes nothing—in
particular under the empty override—while a non-trivial override rewrites
it (e.g. `{a:1}` becomes `{a:2}`). -/
theorem merge_returns_mutated_base :
    (∀ base, merge base JsProps.nil = base) ∧
    merge (JsProps.ofList [("a", JsVal.num 1)]) (JsProps.ofList [("a", JsVal.num 2)])
      = JsProps.ofList [("a", JsVal.num 2)] :=
  ⟨fun _ => rfl, by decide⟩

theorem jsLookup_jsSet_self : ∀ (o : JsProps) (k : String) (v : JsVal),
    jsLookup (jsSet o k v) k = some v
  | JsProps.nil, k, v => by simp [jsSet, jsLookup]
  | JsProps.cons k' v' rest, k, v => by
    by_cases h : k' = k
    · simp [jsSet, jsLookup, h]
    · simp only [jsSet, jsLookup, if_neg h]
      exact jsLookup_jsSet_self rest k v

theorem jsLookup_jsSet_ne : ∀ (o : JsProps) (k0 k : String) (v : JsVal), k0 ≠ k →
    jsLookup (jsSet o k0 v) k = jsLookup o k
  | JsProps.nil, k0, k, v, h => by simp [jsSet, jsLookup, h]
  | JsProps.cons k' v' rest, k0, k, v, h => by
    by_cases h' : k' = k0
    · subst h'
      simp [jsSet, jsLookup, h]
    · simp only [jsSet, jsLookup, if_neg h']
      by_cases h'' : k' = k
      · simp [jsLookup, h'']
      · simp only [jsLookup, if_neg h'']
        exact jsLookup_jsSet_ne rest k0 k v h

theorem jsLookup_eq_none_of_not_mem : ∀ (o : JsProps) (k : String),
    k ∉ jsKeys o → jsLookup o k = none
  | JsProps.nil, k, _ => rfl
  | JsProps.cons k' v rest, k, h => by
    simp only [jsKeys, List.mem_cons, not_or] at h
    have hne : ¬ (k' = k) := fun he => h.1 he.symm
    simp only [jsLookup, if_neg hne]
    exact jsLookup_eq_none_of_not_mem rest k h.2

theorem mergeStep_obj_eq (base : JsProps) (prop : String) (vprops : JsProps) :
    mergeStep base prop (JsVal.obj vprops)
      = jsSet base prop (JsVal.obj (merge (baseSub base prop) vprops)) := by
  rw [mergeStep, baseSub]
  cases hb : jsLookup base prop with
  | none => rfl
  | some v => cases v <;> rfl

theorem mergeStep_lookup_self (base : JsProps) (prop : String) (val : JsVal) :
    jsLookup (mergeStep base prop val) prop = some (mergeResultAt base prop val) := by
  cases val with
  | obj vprops =>
    rw [mergeStep_obj_eq, jsLookup_jsSet_self]
    rfl
  | null => simp [mergeStep, mergeResultAt, jsLookup_jsSet_self]
  | undef => simp [mergeStep, mergeResultAt, jsLookup_jsSet_self]
  | bool b => simp [mergeStep, mergeResultAt, jsLookup_jsSet_self]
  | num n => simp [mergeStep, mergeResultAt, jsLookup_jsSet_self]
  | str s => simp [mergeStep, mergeResultAt, jsLookup_jsSet_self]
  | arr items => simp [mergeStep, mergeResultAt, jsLookup_jsSet_self]

theorem mergeStep_lookup_ne (base : JsProps) (prop k : String) (val : JsVal)
    (h : prop ≠ k) : jsLookup (mergeStep base prop val) k = jsLookup base k := by
  cases val with
  | obj vprops => rw [mergeStep_obj_eq, jsLookup_jsSet_ne base prop k _ h]
  | null => simp only [mergeStep]; exact jsLookup_jsSet_ne base prop k _ h
  | undef => simp only [mergeStep]; exact jsLookup_jsSet_ne base prop k _ h
  | bool b => simp only [mergeStep]; exact jsLookup_jsSet_ne base prop k _ h
  | num n => simp only [mergeStep]; exact jsLookup_jsSet_ne base prop k _ h
  | str s => simp only [mergeStep]; exact jsLookup_jsSet_ne base prop k _ h
  | arr items => simp only [mergeStep]; exact jsLookup_jsSet_ne base prop k _ h

theorem baseSub_mergeStep_ne (base : JsProps) (prop k : String) (val : JsVal)
    (h : prop ≠ k) : baseSub (mergeStep base prop val) k = baseSub base k := by
  rw [baseSub, baseSub, mergeStep_lookup_ne base prop k val h]

theorem merge_lookup : ∀ (ov base : JsProps) (k : String), (jsKeys ov).Nodup →
    jsLookup (merge base ov) k =
      (match jsLookup ov k with
       | none => jsLookup base k
       | some (JsVal.obj vprops) => some (JsVal.obj (merge (baseSub base k) vprops))
       | some v => some v)
  | JsProps.nil, base, k, _ => by simp [merge, jsLookup]
  | JsProps.cons prop val rest, base, k, hnodup => by
    have hn : prop ∉ jsKeys rest ∧ (jsKeys rest).Nodup := by
      simpa [jsKeys] using hnodup
    rw [merge]
    rw [merge_lookup rest (mergeStep base prop val) k hn.2]
    by_cases hk : prop = k
    · subst hk
      rw [jsLookup_eq_none_of_not_mem rest prop hn.1]
      simp only [jsLookup, if_pos rfl]
      rw [mergeStep_lookup_self]
      cases val <;> simp [mergeResultAt]
    · simp only [jsLookup, if_neg hk]
      cases hr : jsLookup rest k with
      | none => exact mergeStep_lookup_ne base prop k val hk
      | some v =>
        cases v with
        | obj vprops => rw [baseSub_mergeStep_ne base prop k val hk]
        | null => rfl
        | undef => rfl
        | bool b => rfl
        | num n => rfl
        | str s => rfl
        | arr items => rfl

/-- C9: for all configuration trees, `merge` recurses exactly when both the
override value and the base value at a key are plain nested mappings, and
otherwise the override value replaces the base value wholesale (arrays
included): at every key the merged tree holds the nested merge when the
override value is a plain mapping (into the base's mapping there, or into a
fresh empty mapping), the override value itself for any other overridden key,
and the base value for keys the override lacks.  In particular
`merge({a:1,b:{x:1}}, {b:{y:2}})` produces `{a:1, b:{x:1,y:2}}` and
`merge({a:[1,2]}, {a:[3]})` produces `{a:[3]}`—array replacement, not
concatenation. -/
theorem merge_recursion_spec :
    (∀ (ov base : JsProps) (k : String), (jsKeys ov).Nodup →
      jsLookup (merge base ov) k =
        (match jsLookup ov k with
         | none => jsLookup base k
         | some (JsVal.obj vprops) => some (JsVal.obj (merge (baseSub base k) vprops))
         | some v => some v)) ∧
    merge (JsProps.ofList [("a", JsVal.num 1),
        ("b", JsVal.obj (JsProps.ofList [("x", JsVal.num 1)]))])
      (JsProps.ofList [("b", JsVal.obj (JsProps.ofList [("y", JsVal.num 2)]))])
      = JsProps.ofList [("a", JsVal.num 1),
          ("b", JsVal.obj (JsProps.ofList [("x", JsVal.num 1), ("y", JsVal.num 2)]))] ∧
    merge (JsProps.ofList [("a", JsVal.arr (JsItems.ofList [JsVal.num 1, JsVal.num 2]))])
      (JsProps.ofList [("a", JsVal.arr (JsItems.ofList [JsVal.num 3]))])
      = JsProps.ofList [("a", JsVal.arr (JsItems.ofList [JsVal.num 3]))] :=
  ⟨merge_lookup, by decide, by decide⟩

/-- Witness for `merge_recursion_spec`: its characterisation applied to the
override `{a:{p:5}}` (whose key list `[a]` has no duplicates) over the base
`{a:3}`: the base value is not a plain mapping, so the override's mapping is
merged into a fresh empty mapping. -/
theorem merge_recursion_spec_witness :
    (jsKeys (JsProps.ofList [("a", JsVal.obj (JsProps.ofList [("p", JsVal.num 5)]))])).Nodup ∧
    jsLookup (merge (JsProps.ofList [("a", JsVal.num 3)])
        (JsProps.ofList [("a", JsVal.obj (JsProps.ofList [("p", JsVal.num 5)]))])) "a"
      = some (JsVal.obj (JsProps.ofList [("p", JsVal.num 5)])) := by
  refine ⟨by decide, ?_⟩
  have h := merge_recursion_spec.1
    (JsProps.ofList [("a", JsVal.obj (JsProps.ofList [("p", JsVal.num 5)]))])
    (JsProps.ofList [("a", JsVal.num 3)]) "a" (by decide)
  rw [h]
  decide

theorem jsLookup_jsExtend_of_none : ∀ (src dest : JsProps) (k : String),
    jsLookup src k = none → jsLookup (jsExtend dest src) k = jsLookup dest k
  | JsProps.nil, dest, k, _ => rfl
  | JsProps.cons k0 v rest, dest, k, h => by
    have hne : ¬ (k0 = k) := by
      intro he
      rw [jsLookup, if_pos he] at h
      exact Option.noConfusion h
    rw [jsLookup, if_neg hne] at h
    rw [jsExtend, jsLookup_jsExtend_of_none rest (jsSet dest k0 v) k h]
    exact jsLookup_jsSet_ne dest k0 k v hne

/-- C3 amended: the final `_.extend(trace, this.traceConfig)` copies every
trace-configuration key onto the freshly built trace, so `x`/`y`/`text`
entries in the (merged) trace configuration silently REPLACE the per-group
computed values; each produced trace still carries the per-group computed
x array, y array and label text exactly when the trace configuration carries
no `x`, `y`, or `text` key. -/
theorem traceFromGroup_identity (vis : MDSVis) (data : List BoundRecord) (groupname : String) :
    (jsLookup vis.traceConfig "x" = none →
      jsLookup (traceFromGroup vis data groupname) "x"
        = some (JsVal.arr (JsItems.ofList (data.map (fun r => coordAt r.coord (vis.xDim - 1)))))) ∧
    (jsLookup vis.traceConfig "y" = none →
      jsLookup (traceFromGroup vis data groupname) "y"
        = some (JsVal.arr (JsItems.ofList (data.map (fun r => coordAt r.coord (vis.yDim - 1)))))) ∧
    (jsLookup vis.traceConfig "text" = none →
      jsLookup (traceFromGroup vis data groupname) "text" = some (JsVal.str groupname)) := by
  refine ⟨fun h => ?_, fun h => ?_, fun h => ?_⟩ <;>
  · rw [traceFromGroup, jsLookup_jsExtend_of_none _ _ _ h]
    simp [JsProps.ofList, jsLookup]

/-- Witness for `traceFromGroup_identity`: with the engine's default trace
configuration (which has no `x` key), the computed x array of a one-record
group survives into the trace. -/
theorem traceFromGroup_identity_witness :
    jsLookup defaultTrace "x" = none ∧
    jsLookup (traceFromGroup
      { coords := [[7, 8]], ndim := 2, xDim := 1, yDim := 2, showLabels := false,
        metadataSupplied := false, metadata := [], data := [{ coord := [7, 8], fields := [] }],
        groupByKey := none, layout := defaultLayout, configOptions := defaultConfig,
        traceConfig := defaultTrace }
      [{ coord := [7, 8], fields := [] }] "B2") "x"
      = some (JsVal.arr (JsItems.ofList [JsVal.num 7])) :=
  ⟨by decide,
   (traceFromGroup_identity
      { coords := [[7, 8]], ndim := 2, xDim := 1, yDim := 2, showLabels := false,
        metadataSupplied := false, metadata := [], data := [{ coord := [7, 8], fields := [] }],
        groupByKey := none, layout := defaultLayout, configOptions := defaultConfig,
        traceConfig := defaultTrace }
      [{ coord := [7, 8], fields := [] }] "B2").1 (by decide)⟩

/-- C3 counterexample: with a trace configuration containing
`x: [99]`, `traceFromGroup` produces a trace whose `x` is the override `[99]`
and NOT the per-group computed x array `[1]`—the override is silently
honored, refuting the claim that the computed per-group identity always
survives. -/
theorem traceFromGroup_counterexample :
    jsLookup (traceFromGroup
      { coords := [[1, 2]], ndim := 2, xDim := 1, yDim := 2, showLabels := false,
        metadataSupplied := false, metadata := [], data := [{ coord := [1, 2], fields := [] }],
        groupByKey := none, layout := defaultLayout, configOptions := defaultConfig,
        traceConfig := JsProps.ofList [("x", JsVal.arr (JsItems.ofList [JsVal.num 99]))] }
      [{ coord := [1, 2], fields := [] }] "g") "x"
      = some (JsVal.arr (JsItems.ofList [JsVal.num 99])) ∧
    some (JsVal.arr (JsItems.ofList [JsVal.num 99]))
      ≠ some (JsVal.arr (JsItems.ofList [JsVal.num 1])) :=
  ⟨by decide, by decide⟩

/-- C4 counterexample: two instances constructed in the same module, the
first with metadata field `a`, the second with metadata field `b`: the
second instance's `getGroupNames()` returns `["a"]`—the FIRST instance's
memoised group names—although the sorted field names of its own first
metadata record are `["b"]`.  The memo closure is created once on the
prototype, so its state is shared by all instances. -/
theorem getGroupNames_cross_instance_counterexample :
    (twoInstanceScenario [[("a", "1")]] [[("b", "2")]]).2 = ["a"] ∧
    computeGroupNames true [[("b", "2")]] = ["b"] ∧
    (["a"] : List String) ≠ ["b"] :=
  ⟨by decide, by decide, by decide⟩

/-- C4 amended: `getGroupNames` memoises in module-level closure state shared
by every instance: the first instance (whose construction with metadata
populates the memo) gets the sorted field names of its own first metadata
record, and a second instance's `getGroupNames()` returns the first
instance's names verbatim, regardless of the second instance's own
metadata—the instances interfere. -/
theorem getGroupNames_shared_memo (md1 md2 : List MetaRecord) :
    (twoInstanceScenario md1 md2).1 = computeGroupNames true md1 ∧
    (twoInstanceScenario md1 md2).2 = (twoInstanceScenario md1 md2).1 :=
  ⟨rfl, rfl⟩

/-- C1 counterexample: two labels at the IDENTICAL screen position with
DIFFERENT texts "A" and "B": the resolver hides neither (the inner scan
returns early whenever the two texts differ), so the later-drawn label is
NOT hidden, refuting the claimed different-text suppression; dually, the
identical-text protection is refuted by `setOverlappingLabelText_two_labels`
(same text at the same position hides the later label). -/
theorem overlap_different_text_counterexample :
    (setOverlappingLabelText
      [{ text := "A", x := 0, y := 0, w := 10, h := 10 },
       { text := "B", x := 0, y := 0, w := 10, h := 10 }]).hiddenLabels = [] ∧
    (setOverlappingLabelText
      [{ text := "A", x := 0, y := 0, w := 10, h := 10 },
       { text := "B", x := 0, y := 0, w := 10, h := 10 }]).texts = ["A", "B"] ∧
    ("A" : String) ≠ "B" :=
  ⟨by decide, by decide, by decide⟩

/-- C1 amended (the code's guard is the REVERSE of the claim): for a run on
two labels, if the texts DIFFER then neither label is ever hidden, at any
positions; if the texts are IDENTICAL and the computed screen positions
coincide (and the first label's bounding box has positive extent), the
later-drawn label is hidden (its text blanked) and the earlier one remains
visible with its text intact. -/
theorem setOverlappingLabelText_two_labels (l0 l1 : SvgLabel) :
    (l0.text ≠ l1.text →
      (setOverlappingLabelText [l0, l1]).hiddenLabels = [] ∧
      (setOverlappingLabelText [l0, l1]).texts = [l0.text, l1.text]) ∧
    (l0.text = l1.text → l0.x = l1.x → l0.y = l1.y → 0 < l0.w → 0 < l0.h →
      (setOverlappingLabelText [l0, l1]).hiddenLabels = [1] ∧
      (setOverlappingLabelText [l0, l1]).texts = [l0.text, ""]) := by
  obtain ⟨t0, x0, y0, w0, h0⟩ := l0
  obtain ⟨t1, x1, y1, w1, h1⟩ := l1
  constructor
  · intro h
    have h' : t1 ≠ t0 := Ne.symm h
    constructor <;>
      simp [setOverlappingLabelText, outerStep, innerStep, List.range_succ, h, h']
  · intro ht hx hy hw hh
    subst ht
    subst hx
    subst hy
    simp only [SvgLabel.w] at hw
    simp only [SvgLabel.h] at hh
    constructor <;>
    · simp [setOverlappingLabelText, outerStep, innerStep, List.range_succ, overlapDelta]
      split_ifs <;> first | rfl | omega | simp_all

/-- Witness for `setOverlappingLabelText_two_labels`: two labels with the
same text "X" at the same position (the first with a 10×10 box): the later
label is hidden and blanked, the earlier remains. -/
theorem setOverlappingLabelText_two_labels_witness :
    (setOverlappingLabelText
      [{ text := "X", x := 0, y := 0, w := 10, h := 10 },
       { text := "X", x := 0, y := 0, w := 3, h := 3 }]).hiddenLabels = [1] ∧
    (setOverlappingLabelText
      [{ text := "X", x := 0, y := 0, w := 10, h := 10 },
       { text := "X", x := 0, y := 0, w := 3, h := 3 }]).texts = ["X", ""] :=
  (setOverlappingLabelText_two_labels
    { text := "X", x := 0, y := 0, w := 10, h := 10 }
    { text := "X", x := 0, y := 0, w := 3, h := 3 }).2 rfl rfl rfl (by decide) (by decide)

/-- C5 counterexample: two same-text labels where the EARLIER-drawn label
(index 0, at (9,9)) is suppressed by the LATER-drawn one (index 1, at (0,0)):
label 0's anchor lies in label 1's expanded box but not conversely, and the
inner scan covers all labels—not only later ones—so outer pass 1 hides
label 0.  `hideEvents = [(1, 0)]` records that outer label 1 suppressed
earlier label 0, refuting "later, overlapping labels are always the ones
suppressed — never the reverse". -/
theorem overlap_earlier_suppressed_counterexample :
    (setOverlappingLabelText
      [{ text := "X", x := 9, y := 9, w := 10, h := 10 },
       { text := "X", x := 0, y := 0, w := 10, h := 10 }]).hiddenLabels = [0] ∧
    (setOverlappingLabelText
      [{ text := "X", x := 9, y := 9, w := 10, h := 10 },
       { text := "X", x := 0, y := 0, w := 10, h := 10 }]).hideEvents = [(1, 0)] :=
  ⟨by decide, by decide⟩

theorem innerStep_cases (labels : List SvgLabel) (i : Nat) (st : OverlapState) (j : Nat) :
    innerStep labels i st j = st ∨
    (i ≠ j ∧ innerStep labels i st j =
      { st with texts := st.texts.set j "",
                hiddenLabels := st.hiddenLabels ++ [j],
                hideEvents := st.hideEvents ++ [(i, j)] }) := by
  simp only [innerStep]
  split_ifs with h1 h2
  · exact Or.inl rfl
  · exact Or.inr ⟨fun he => h1 (Or.inl he), rfl⟩
  · exact Or.inl rfl

theorem innerFold_spec (labels : List SvgLabel) (i : Nat) :
    ∀ (js : List Nat) (st : OverlapState),
      (js.foldl (innerStep labels i) st).evaluated = st.evaluated ∧
      (∀ x ∈ st.hiddenLabels, x ∈ (js.foldl (innerStep labels i) st).hiddenLabels) ∧
      (∀ pj ∈ (js.foldl (innerStep labels i) st).hideEvents,
        pj ∈ st.hideEvents ∨
          (pj.1 = i ∧ pj.2 ≠ i ∧ pj.2 ∈ (js.foldl (innerStep labels i) st).hiddenLabels)) := by
  intro js
  induction js with
  | nil => exact fun st => ⟨rfl, fun x hx => hx, fun pj hpj => Or.inl hpj⟩
  | cons j js ih =>
    intro st
    rw [List.foldl_cons]
    rcases innerStep_cases labels i st j with hstep | ⟨hne, hstep⟩
    · rw [hstep]
      exact ih st
    · rw [hstep]
      obtain ⟨ihe, ihh, ihev⟩ := ih
        { st with texts := st.texts.set j "",
                  hiddenLabels := st.hiddenLabels ++ [j],
                  hideEvents := st.hideEvents ++ [(i, j)] }
      refine ⟨ihe, ?_, ?_⟩
      · intro x hx
        exact ihh x (by simp [hx])
      · intro pj hpj
        rcases ihev pj hpj with h1 | h2
        · have h1' : pj ∈ st.hideEvents ∨ pj = (i, j) := by simpa using h1
          rcases h1' with h | h
          · exact Or.inl h
          · subst h
            refine Or.inr ⟨rfl, fun he => hne he.symm, ?_⟩
            exact ihh j (by simp)
        · exact Or.inr h2

theorem outerFold_spec (labels : List SvgLabel) :
    ∀ (l : List Nat) (st : OverlapState),
      List.Pairwise (· < ·) l →
      (∀ e ∈ st.evaluated, ∀ m ∈ l, e < m) →
      (∀ pj ∈ st.hideEvents, pj.2 ∈ st.hiddenLabels) →
      (∀ pj ∈ st.hideEvents, pj.1 < pj.2 → pj.2 ∉ st.evaluated) →
      (∀ pj ∈ (l.foldl (outerStep labels) st).hideEvents,
        pj.2 ∈ (l.foldl (outerStep labels) st).hiddenLabels) ∧
      (∀ pj ∈ (l.foldl (outerStep labels) st).hideEvents,
        pj.1 < pj.2 → pj.2 ∉ (l.foldl (outerStep labels) st).evaluated) := by
  intro l
  induction l with
  | nil => exact fun st _ _ hhid hmain => ⟨hhid, hmain⟩
  | cons i l ih =>
    intro st hpw hord hhid hmain
    rw [List.foldl_cons]
    by_cases hmem : i ∈ st.hiddenLabels
    · rw [outerStep, if_pos hmem]
      exact ih st hpw.of_cons
        (fun e he m hm => hord e he m (List.mem_cons_of_mem i hm)) hhid hmain
    · rw [outerStep, if_neg hmem]
      obtain ⟨ie, ihh, iev⟩ := innerFold_spec labels i (List.range labels.length)
        { st with evaluated := st.evaluated ++ [i] }
      set st1 := (List.range labels.length).foldl (innerStep labels i)
        { st with evaluated := st.evaluated ++ [i] } with hst1
      have hhid1 : ∀ pj ∈ st1.hideEvents, pj.2 ∈ st1.hiddenLabels := by
        intro pj hpj
        rcases iev pj hpj with h1 | h2
        · exact ihh pj.2 (hhid pj (by simpa using h1))
        · exact h2.2.2
      have hmain1 : ∀ pj ∈ st1.hideEvents, pj.1 < pj.2 → pj.2 ∉ st1.evaluated := by
        intro pj hpj hlt hev
        rw [ie] at hev
        simp only [List.mem_append, List.mem_singleton] at hev
        rcases iev pj hpj with h1 | h2
        · have h1' : pj ∈ st.hideEvents := by simpa using h1
          rcases hev with hev | hev
          · exact hmain pj h1' hlt hev
          · have : pj.2 ∈ st.hiddenLabels := hhid pj h1'
            rw [hev] at this
            exact hmem this
        · rcases hev with hev | hev
          · have hgt : i < pj.2 := h2.1 ▸ hlt
            have hlt2 : pj.2 < i := hord pj.2 hev i (List.mem_cons_self i l)
            omega
          · exact h2.2.1 hev
      have hord1 : ∀ e ∈ st1.evaluated, ∀ m ∈ l, e < m := by
        intro e he m hm
        rw [ie] at he
        simp only [List.mem_append, List.mem_singleton] at he
        rcases he with he | he
        · exact hord e he m (List.mem_cons_of_mem i hm)
        · subst he
          exact List.rel_of_pairwise_cons hpw hm
      exact ih st1 hpw.of_cons hord1 hhid1 hmain1

/-- C5 amended: the inner scan covers all other labels—not only later-drawn
ones—so suppression can go in either draw-order direction (see the
counterexample where outer label 1 suppresses earlier label 0); but the
second half of the claim holds: a label hidden by an earlier-indexed outer
pass (a hide event `(p, j)` with `p < j`) is never subsequently evaluated as
a suppressor of other labels—the outer pass skips every label already in
`hiddenLabels`, so `j` never enters `evaluated`. -/
theorem setOverlappingLabelText_hidden_not_suppressor (labels : List SvgLabel)
    (p j : Nat) (hev : (p, j) ∈ (setOverlappingLabelText labels).hideEvents)
    (hlt : p < j) : j ∉ (setOverlappingLabelText labels).evaluated := by
  rw [setOverlappingLabelText] at hev ⊢
  have h := outerFold_spec labels (List.range labels.length)
    { texts := labels.map SvgLabel.text, hiddenLabels := [],
      evaluated := [], hideEvents := [] }
    (List.pairwise_lt_range labels.length)
    (by intro e he; simp at he)
    (by intro pj hpj; simp at hpj)
    (by intro pj hpj; simp at hpj)
  exact h.2 (p, j) hev hlt

/-- Witness for `setOverlappingLabelText_hidden_not_suppressor`: in the
two-label run where outer pass 0 hides label 1 (hide event `(0, 1)`),
label 1 is never evaluated as a suppressor. -/
theorem setOverlappingLabelText_hidden_not_suppressor_witness :
    ((0, 1) ∈ (setOverlappingLabelText
      [{ text := "Y", x := 4, y := 4, w := 5, h := 5 },
       { text := "Y", x := 4, y := 4, w := 5, h := 5 }]).hideEvents ∧ 0 < 1) ∧
    1 ∉ (setOverlappingLabelText
      [{ text := "Y", x := 4, y := 4, w := 5, h := 5 },
       { text := "Y", x := 4, y := 4, w := 5, h := 5 }]).evaluated :=
  ⟨⟨by decide, by decide⟩,
   setOverlappingLabelText_hidden_not_suppressor
     [{ text := "Y", x := 4, y := 4, w := 5, h := 5 },
      { text := "Y", x := 4, y := 4, w := 5, h := 5 }] 0 1 (by decide) (by decide)⟩

theorem groupUpsert_keys : ∀ (acc : List (String × List BoundRecord)) (k : String)
    (r : BoundRecord),
    (groupUpsert acc k r).map Prod.fst =
      if k ∈ acc.map Prod.fst then acc.map Prod.fst else acc.map Prod.fst ++ [k]
  | [], k, r => by simp [groupUpsert]
  | (k', rs) :: rest, k, r => by
    by_cases h : k' = k
    · simp [groupUpsert, h]
    · have hne : ¬ (k = k') := fun he => h he.symm
      simp only [groupUpsert, if_neg h, List.map_cons, List.mem_cons]
      rw [groupUpsert_keys rest k r]
      by_cases hm : k ∈ rest.map Prod.fst
      · simp [hm, hne]
      · simp [hm, hne]

theorem foldl_group_keys (gk : String) : ∀ (data : List BoundRecord)
    (acc : List (String × List BoundRecord)),
    (data.foldl (fun a r => groupUpsert a (recKey r gk) r) acc).map Prod.fst =
      data.foldl (fun ks r => let k := recKey r gk; if k ∈ ks then ks else ks ++ [k])
        (acc.map Prod.fst)
  | [], acc => rfl
  | r :: data, acc => by
    rw [List.foldl_cons, List.foldl_cons, foldl_group_keys gk data, groupUpsert_keys]

theorem groupByKeyed_keys (data : List BoundRecord) (gk : String) :
    (groupByKeyed data gk).map Prod.fst = firstSeenKeys data gk := by
  rw [groupByKeyed, firstSeenKeys, foldl_group_keys gk data []]
  rfl

theorem mem_groupUpsert : ∀ (acc : List (String × List BoundRecord)) (k : String)
    (r : BoundRecord) (p : String × List BoundRecord),
    (acc.map Prod.fst).Nodup → p ∈ groupUpsert acc k r →
    (p ∈ acc ∧ p.1 ≠ k) ∨
    (∃ rs, (k, rs) ∈ acc ∧ p = (k, rs ++ [r])) ∨
    (k ∉ acc.map Prod.fst ∧ p = (k, [r]))
  | [], k, r, p, _, hp => by
    right; right
    refine ⟨by simp, ?_⟩
    simpa [groupUpsert] using hp
  | (k', rs) :: rest, k, r, p, hnd, hp => by
    simp only [List.map_cons, List.nodup_cons] at hnd
    by_cases h : k' = k
    · subst h
      rw [groupUpsert, if_pos rfl] at hp
      rcases List.mem_cons.mp hp with hp | hp
      · exact Or.inr (Or.inl ⟨rs, List.mem_cons_self _ _, hp⟩)
      · refine Or.inl ⟨List.mem_cons_of_mem _ hp, fun he => hnd.1 ?_⟩
        rw [← he]
        exact List.mem_map_of_mem Prod.fst hp
    · rw [groupUpsert, if_neg h] at hp
      rcases List.mem_cons.mp hp with hp | hp
      · subst hp
        exact Or.inl ⟨List.mem_cons_self _ _, h⟩
      · rcases mem_groupUpsert rest k r p hnd.2 hp with h1 | h2 | h3
        · exact Or.inl ⟨List.mem_cons_of_mem _ h1.1, h1.2⟩
        · obtain ⟨rs0, hrs0, hpe⟩ := h2
          exact Or.inr (Or.inl ⟨rs0, List.mem_cons_of_mem _ hrs0, hpe⟩)
        · refine Or.inr (Or.inr ⟨?_, h3.2⟩)
          simp only [List.map_cons, List.mem_cons, not_or]
          exact ⟨fun he => h he.symm, h3.1⟩

theorem foldl_groups_filter (gk : String) : ∀ (data : List BoundRecord)
    (acc : List (String × List BoundRecord)) (processed : List BoundRecord),
    (acc.map Prod.fst).Nodup →
    (∀ p ∈ acc, p.2 = processed.filter (fun x => recKey x gk == p.1)) →
    (∀ x ∈ processed, recKey x gk ∈ acc.map Prod.fst) →
    ∀ p ∈ data.foldl (fun a r => groupUpsert a (recKey r gk) r) acc,
      p.2 = (processed ++ data).filter (fun x => recKey x gk == p.1)
  | [], acc, processed, _, hent, _, p, hp => by
    simpa using hent p hp
  | r :: data, acc, processed, hnd, hent, hcov, p, hp => by
    rw [List.foldl_cons] at hp
    have hnd' : ((groupUpsert acc (recKey r gk) r).map Prod.fst).Nodup := by
      rw [groupUpsert_keys]
      by_cases hm : recKey r gk ∈ acc.map Prod.fst
      · simpa [hm] using hnd
      · simp [hm, List.nodup_append, hnd]
    have hent' : ∀ q ∈ groupUpsert acc (recKey r gk) r,
        q.2 = (processed ++ [r]).filter (fun x => recKey x gk == q.1) := by
      intro q hq
      rcases mem_groupUpsert acc (recKey r gk) r q hnd hq with h1 | h2 | h3
      · rw [List.filter_append, hent q h1.1]
        have : (recKey r gk == q.1) = false := by
          simp only [beq_eq_false_iff_ne, ne_eq]
          exact fun he => h1.2 he.symm
        simp [this]
      · obtain ⟨rs0, hrs0, hqe⟩ := h2
        subst hqe
        have hr : rs0 = processed.filter (fun x => recKey x gk == recKey r gk) := by
          simpa using hent (recKey r gk, rs0) hrs0
        rw [List.filter_append]
        show rs0 ++ [r] = _ ++ _
        rw [← hr]
        simp
      · obtain ⟨hnotin, hqe⟩ := h3
        subst hqe
        rw [List.filter_append]
        have hpf : processed.filter (fun x => recKey x gk == recKey r gk) = [] := by
          rw [List.filter_eq_nil_iff]
          intro x hx
          simp only [beq_iff_eq]
          intro he
          exact hnotin (he ▸ hcov x hx)
        show [r] = _ ++ _
        simp [hpf]
    have hcov' : ∀ x ∈ processed ++ [r],
        recKey x gk ∈ (groupUpsert acc (recKey r gk) r).map Prod.fst := by
      intro x hx
      rw [groupUpsert_keys]
      rcases List.mem_append.mp hx with hx | hx
      · by_cases hm : recKey r gk ∈ acc.map Prod.fst
        · simpa [hm] using hcov x hx
        · simp [hm, hcov x hx]
      · have hxr : x = r := by simpa using hx
        subst hxr
        by_cases hm : recKey x gk ∈ acc.map Prod.fst
        · simp [hm]
        · simp [hm]
    have := foldl_groups_filter gk data (groupUpsert acc (recKey r gk) r)
      (processed ++ [r]) hnd' hent' hcov' p hp
    simpa [List.append_assoc] using this

theorem insertByNum_perm (p : String × List BoundRecord) :
    ∀ l, (insertByNum p l).Perm (p :: l)
  | [] => List.Perm.refl _
  | q :: qs => by
    rw [insertByNum]
    split_ifs
    · exact List.Perm.refl _
    · exact (List.Perm.cons q (insertByNum_perm p qs)).trans (List.Perm.swap p q qs)

theorem sortByNum_perm : ∀ (l : List (String × List BoundRecord)),
    (l.foldr insertByNum []).Perm l
  | [] => List.Perm.refl _
  | q :: qs => by
    rw [List.foldr_cons]
    exact (insertByNum_perm q _).trans (List.Perm.cons q (sortByNum_perm qs))

theorem jsOwnKeysOrder_perm (l : List (String × List BoundRecord)) :
    (jsOwnKeysOrder l).Perm l := by
  rw [jsOwnKeysOrder]
  exact ((sortByNum_perm _).append_right _).trans (List.filter_append_perm _ l)

theorem jsOwnKeysOrder_eq_self (l : List (String × List BoundRecord))
    (h : ∀ p ∈ l, ¬ isArrayIndexKey p.1 = true) : jsOwnKeysOrder l = l := by
  rw [jsOwnKeysOrder]
  have h1 : l.filter (fun p => isArrayIndexKey p.1) = [] :=
    List.filter_eq_nil_iff.mpr (by intro a ha; simpa using h a ha)
  have h2 : l.filter (fun p => !isArrayIndexKey p.1) = l :=
    List.filter_eq_self.mpr (by intro a ha; simpa using h a ha)
  rw [h1, h2]
  rfl

/-- C6 counterexample: two records whose `tissue` values are the
integer-like strings "10" (first) and "2" (second).  `_.groupBy` stores the
groups on a plain JS object, and `_.map` enumerates that object's keys in JS
own-property order—array-index keys first in ASCENDING NUMERIC order—so the
trace builder emits group "2" before group "10", not in first-appearance
order "10", "2" (nor alphabetical order, which here coincides with
first-seen order since "10" < "2" lexicographically). -/
theorem getTraces_numeric_keys_counterexample :
    (getTracesGroups
      [{ coord := [1, 2], fields := [("tissue", "10")] },
       { coord := [3, 4], fields := [("tissue", "2")] }] "tissue").map Prod.fst = ["2", "10"] ∧
    firstSeenKeys
      [{ coord := [1, 2], fields := [("tissue", "10")] },
       { coord := [3, 4], fields := [("tissue", "2")] }] "tissue" = ["10", "2"] ∧
    (["2", "10"] : List String) ≠ ["10", "2"] :=
  ⟨by decide, by decide, by decide⟩

/-- C6 amended: the trace builder emits one group per distinct key value,
each group holding exactly its matching records in original index order, and
the group sequence is a permutation of the distinct values in first-seen
order; the order IS exactly first-seen order whenever no key value is an
integer-like (array-index) string—but integer-like key values are enumerated
first in ascending numeric order (see the counterexample).  The spec's
concrete example holds: grouping four records by `tissue` with values
[BM, BM, LN, LN] yields group BM then group LN, each with its two records in
input order. -/
theorem getTraces_grouping :
    (∀ (data : List BoundRecord) (gk : String),
      ((getTracesGroups data gk).map Prod.fst).Perm (firstSeenKeys data gk) ∧
      ((∀ k ∈ firstSeenKeys data gk, ¬ isArrayIndexKey k = true) →
        (getTracesGroups data gk).map Prod.fst = firstSeenKeys data gk) ∧
      (∀ p ∈ getTracesGroups data gk,
        p.2 = data.filter (fun r => recKey r gk == p.1))) ∧
    getTracesGroups
      [{ coord := [1, 2], fields := [("celltype", "c1"), ("tissue", "BM")] },
       { coord := [3, 4], fields := [("celltype", "c2"), ("tissue", "BM")] },
       { coord := [5, 6], fields := [("celltype", "c3"), ("tissue", "LN")] },
       { coord := [7, 8], fields := [("celltype", "c4"), ("tissue", "LN")] }] "tissue"
      = [("BM", [{ coord := [1, 2], fields := [("celltype", "c1"), ("tissue", "BM")] },
                 { coord := [3, 4], fields := [("celltype", "c2"), ("tissue", "BM")] }]),
         ("LN", [{ coord := [5, 6], fields := [("celltype", "c3"), ("tissue", "LN")] },
                 { coord := [7, 8], fields := [("celltype", "c4"), ("tissue", "LN")] }])] := by
  refine ⟨fun data gk => ⟨?_, ?_, ?_⟩, by decide⟩
  · rw [getTracesGroups, ← groupByKeyed_keys data gk]
    exact (jsOwnKeysOrder_perm (groupByKeyed data gk)).map Prod.fst
  · intro h
    rw [getTracesGroups, jsOwnKeysOrder_eq_self, groupByKeyed_keys]
    intro p hp
    apply h
    rw [← groupByKeyed_keys data gk]
    exact List.mem_map_of_mem Prod.fst hp
  · intro p hp
    rw [getTracesGroups] at hp
    have hp' : p ∈ groupByKeyed data gk :=
      (jsOwnKeysOrder_perm (groupByKeyed data gk)).mem_iff.mp hp
    exact foldl_groups_filter gk data [] [] (by simp) (by simp) (by simp) p hp'

/-- Witness for `getTraces_grouping`: in the BM/LN dataset no key value is an
integer-like string, so the emitted group order is exactly first-seen order
["BM", "LN"]. -/
theorem getTraces_grouping_witness :
    (∀ k ∈ firstSeenKeys
      [{ coord := [1, 2], fields := [("celltype", "c1"), ("tissue", "BM")] },
       { coord := [3, 4], fields := [("celltype", "c2"), ("tissue", "BM")] },
       { coord := [5, 6], fields := [("celltype", "c3"), ("tissue", "LN")] },
       { coord := [7, 8], fields := [("celltype", "c4"), ("tissue", "LN")] }] "tissue",
      ¬ isArrayIndexKey k = true) ∧
    (getTracesGroups
      [{ coord := [1, 2], fields := [("celltype", "c1"), ("tissue", "BM")] },
       { coord := [3, 4], fields := [("celltype", "c2"), ("tissue", "BM")] },
       { coord := [5, 6], fields := [("celltype", "c3"), ("tissue", "LN")] },
       { coord := [7, 8], fields := [("celltype", "c4"), ("tissue", "LN")] }] "tissue").map
      Prod.fst = firstSeenKeys
      [{ coord := [1, 2], fields := [("celltype", "c1"), ("tissue", "BM")] },
       { coord := [3, 4], fields := [("celltype", "c2"), ("tissue", "BM")] },
       { coord := [5, 6], fields := [("celltype", "c3"), ("tissue", "LN")] },
       { coord := [7, 8], fields := [("celltype", "c4"), ("tissue", "LN")] }] "tissue" :=
  ⟨by decide,
   (getTraces_grouping.1
     [{ coord := [1, 2], fields := [("celltype", "c1"), ("tissue", "BM")] },
      { coord := [3, 4], fields := [("celltype", "c2"), ("tissue", "BM")] },
      { coord := [5, 6], fields := [("celltype", "c3"), ("tissue", "LN")] },
      { coord := [7, 8], fields := [("celltype", "c4"), ("tissue", "LN")] }] "tissue").2.1
     (by decide)⟩
